import Mathlib

/-!
# Verification of the MobileArgus vault orchestration layer

Shallow embedding of the multisig/vault orchestration code of the ARGUS
wallet (files `src/utils/squads.ts` and `src/utils/swap.ts`).  Network
interaction (`Connection.getAccountInfo`, `sendTransaction`,
`sendRawTransaction`, `confirmTransaction`, `getSignatureStatus`, balance
reads) is modelled by explicit oracles passed to the embedded functions;
each on-chain submission is recorded in an ordered trace so that ordering
properties of writes can be stated.  Machine integers (lamports, transaction
indices) are modelled as `Nat`, byte arrays as `List Nat`, and addresses by
a free datatype whose constructors mirror the PDA derivations of the Squads
SDK (base58 rendering of a key is injective, so `toBase58()` string
comparison and `PublicKey.equals` both become decidable equality).
-/

namespace Argus

/-- Solana addresses.  `bytes` is a raw 32-byte public key, `fromSeed` is
`Keypair.fromSeed(seed).publicKey`, and the four PDA constructors mirror the
Squads SDK derivations `getMultisigPda`, `getVaultPda`, `getTransactionPda`.
`squadsProgram` is the fixed `SQUADS_PROGRAM_ID` constant
(`SQDS4ep65T869zMMBKyuUq6aD6EgTu8psMjkvj52pCf`, squads.ts line 76) and
`systemProgram` is `SystemProgram.programId`. -/
inductive Pubkey where
  | bytes (b : List Nat) : Pubkey
  | fromSeed (seed : List Nat) : Pubkey
  | multisigPda (createKey : Pubkey) : Pubkey
  | vaultPda (ms : Pubkey) (index : Nat) : Pubkey
  | transactionPda (ms : Pubkey) (index : Nat) : Pubkey
  | squadsProgram : Pubkey
  | systemProgram : Pubkey
deriving DecidableEq, Repr

/-- JavaScript `String.prototype.includes(needle)`: substring test. -/
def jsIncludes (hay needle : String) : Bool :=
  (List.range (hay.data.length + 1)).any fun k => needle.data.isPrefixOf (hay.data.drop k)

/-- JavaScript `String.prototype.toLowerCase()` (character-wise). -/
def jsToLower (s : String) : String := String.mk (s.data.map Char.toLower)

/-- An account as observed through `connection.getAccountInfo`: only the
owning program and (when the account is a multisig) the decoded
`transactionIndex` counter are consulted by the embedded functions. -/
structure AccountInfo where
  owner : Pubkey
  multisigTxIndex : Nat
deriving DecidableEq, Repr

/-- A read-only view of chain state: the accounts visible via
`getAccountInfo` at each address. -/
structure Chain where
  accounts : Pubkey → Option AccountInfo

/- ============================================================
   Multisig Provisioner — `createSquad` (squads.ts lines 78-238)
   ============================================================ -/

/-- squads.ts lines 101-102: `const seed = creator.publicKey.toBytes();
seed[i % 32] ^= 0xFF;` — a fresh copy of the owner's key bytes with the
single byte at position `i % 32` XOR-ed with `0xFF`. -/
def perturbSeed (ownerBytes : List Nat) (i : Nat) : List Nat :=
  ownerBytes.set (i % 32) ((ownerBytes.getD (i % 32) 0) ^^^ 0xFF)

/-- Spec reading of the same derivation (§4.2 step 1 of the spec), stated
independently for comparison with `perturbSeed`: byte `j` of the seed is
byte `j` of the owner key, except position `i % 32`, which is flipped via
XOR with the fixed mask `0xFF`. -/
def specPerturbSeed (ownerBytes : List Nat) (i : Nat) : List Nat :=
  (List.range ownerBytes.length).map fun j =>
    if j = i % 32 then ownerBytes.getD j 0 ^^^ 0xFF else ownerBytes.getD j 0

/-- squads.ts line 103: `Keypair.fromSeed(seed)` — the deterministic create
key used at attempt `i`. -/
def createKeyAt (ownerBytes : List Nat) (i : Nat) : Pubkey :=
  Pubkey.fromSeed (perturbSeed ownerBytes i)

/-- squads.ts lines 105-108: the multisig PDA derived from attempt `i`'s
create key. -/
def multisigPdaAt (ownerBytes : List Nat) (i : Nat) : Pubkey :=
  Pubkey.multisigPda (createKeyAt ownerBytes i)

/-- squads.ts lines 110-114: the vault PDA at vault index 0. -/
def vaultPdaAt (ownerBytes : List Nat) (i : Nat) : Pubkey :=
  Pubkey.vaultPda (multisigPdaAt ownerBytes i) 0

/-- The chain's behaviour at one iteration of `createSquad`'s attempt loop:
either the multisig address is already occupied (with the occupying
account's owner program), or it is absent and the creation transaction
(build, send, confirm, squads.ts lines 126-193) succeeds with a signature,
or it is absent and creation throws with the given error message.
`verifyOwners` gives, for the bounded re-verification loop of lines
209-219, the owner seen by each successive `getAccountInfo` read
(`none` when the read still returns no account). -/
inductive AttemptEnv where
  | existsAccount (owner : Pubkey)
  | absentCreateOk (sig : String)
  | absentCreateFail (errMsg : String) (verifyOwners : List (Option Pubkey))
deriving DecidableEq, Repr

/-- squads.ts lines 209-219: up to 5 `getAccountInfo` reads, succeeding as
soon as one shows an account owned by the Squads program. -/
def verify6014 (verifyOwners : List (Option Pubkey)) : Bool :=
  (List.range 5).any fun k => verifyOwners.getD k none == some Pubkey.squadsProgram

/-- squads.ts line 201: the error-message test selecting the
"already initialized" recovery path. -/
def isAlreadyInUseError (errMsg : String) : Bool :=
  jsIncludes errMsg "6014" || jsIncludes errMsg "already in use"

/-- Whether the attempt-loop body returns (rather than falling through to
the next index) under the given per-attempt chain behaviour. -/
def attemptReturns : AttemptEnv → Bool
  | .existsAccount owner => owner == Pubkey.squadsProgram
  | .absentCreateOk _ => true
  | .absentCreateFail msg verifyOwners => isAlreadyInUseError msg && verify6014 verifyOwners

/-- An attempt at which the derived address is occupied by an account that
is not a valid Squads multisig: a direct owner mismatch at the existence
pre-check (line 119 fails, line 125 guard fails), or a creation failure on
the error-6014 path whose bounded ownership re-verification fails. -/
def invalidOccupied : AttemptEnv → Bool
  | .existsAccount owner => owner != Pubkey.squadsProgram
  | .absentCreateOk _ => false
  | .absentCreateFail msg verifyOwners => isAlreadyInUseError msg && !verify6014 verifyOwners

/-- Result record of `createSquad`: `{ signature, multisigPda, vaultPda }`. -/
structure SquadResult where
  signature : String
  multisigPda : Pubkey
  vaultPda : Pubkey
deriving DecidableEq, Repr

/-- The result a returning attempt produces: `"RECOVERED"` at the existence
pre-check (squads.ts line 121), the creation signature on a successful
creation (line 193), `"RECOVERED_6014"` on a verified already-initialized
recovery (line 223). -/
def attemptValue (ownerBytes : List Nat) (i : Nat) : AttemptEnv → SquadResult
  | .existsAccount _ => ⟨"RECOVERED", multisigPdaAt ownerBytes i, vaultPdaAt ownerBytes i⟩
  | .absentCreateOk sig => ⟨sig, multisigPdaAt ownerBytes i, vaultPdaAt ownerBytes i⟩
  | .absentCreateFail _ _ =>
      ⟨"RECOVERED_6014", multisigPdaAt ownerBytes i, vaultPdaAt ownerBytes i⟩

/-- The errors `createSquad` can throw: the balance guard of lines 91-93,
a re-thrown last per-attempt error (line 237, `lastError` non-null), or the
explicit no-free-slot error (line 237, `lastError` null). -/
inductive SquadError where
  | insufficientFunds (balance : Nat)
  | attemptError (msg : String)
  | noFreeSlot
deriving DecidableEq, Repr

/-- `lastError` threading: an attempt that enters the `catch` block
(lines 195-232, i.e. creation was attempted and threw) records its message;
an occupied-address fall-through (no creation attempted) leaves it. -/
def nextLastErr (lastErr : Option String) : AttemptEnv → Option String
  | .existsAccount _ => lastErr
  | .absentCreateOk _ => lastErr
  | .absentCreateFail msg _ => some msg

/-- The value of `lastError` after the loop has consumed `fuel` attempts
starting at index `i` (none of which returned). -/
def finalLastErr (env : Nat → AttemptEnv) : Option String → Nat → Nat → Option String
  | lastErr, 0, _ => lastErr
  | lastErr, fuel + 1, i => finalLastErr env (nextLastErr lastErr (env i)) fuel (i + 1)

/-- squads.ts lines 97-237: the attempt loop of `createSquad`, with `fuel`
remaining attempts, current attempt index `i` and the current `lastError`.
On exhaustion: `throw lastError || new Error("Failed to find a valid Vault
slot after multiple attempts.")` (line 237). -/
def createSquadLoop (ownerBytes : List Nat) (env : Nat → AttemptEnv) :
    Nat → Nat → Option String → Except SquadError SquadResult
  | 0, _, lastErr =>
      .error (match lastErr with
        | some m => SquadError.attemptError m
        | none => SquadError.noFreeSlot)
  | fuel + 1, i, lastErr =>
      match env i with
      | .existsAccount owner =>
          if owner = Pubkey.squadsProgram then
            .ok ⟨"RECOVERED", multisigPdaAt ownerBytes i, vaultPdaAt ownerBytes i⟩
          else
            createSquadLoop ownerBytes env fuel (i + 1) lastErr
      | .absentCreateOk sig =>
          .ok ⟨sig, multisigPdaAt ownerBytes i, vaultPdaAt ownerBytes i⟩
      | .absentCreateFail msg verifyOwners =>
          if isAlreadyInUseError msg then
            if verify6014 verifyOwners then
              .ok ⟨"RECOVERED_6014", multisigPdaAt ownerBytes i, vaultPdaAt ownerBytes i⟩
            else
              createSquadLoop ownerBytes env fuel (i + 1) (some msg)
          else
            createSquadLoop ownerBytes env fuel (i + 1) (some msg)

/-- squads.ts lines 78-238: `createSquad`.  `member2` and `threshold` enter
only the creation instruction (whose network effect the oracle models), so
they do not influence the returned addresses.  The creator-balance guard of
lines 89-93 uses the threshold `0.01 * 1e9 = 10000000` lamports. -/
def createSquad (ownerBytes : List Nat) (member2 : Pubkey) (threshold : Nat)
    (creatorBalance : Nat) (env : Nat → AttemptEnv) : Except SquadError SquadResult :=
  if creatorBalance < 10000000 then .error (.insufficientFunds creatorBalance)
  else createSquadLoop ownerBytes env 10 0 none

/- ============================================================
   Transaction Index Allocator — `getNextTransactionIndex`
   (squads.ts lines 35-72)
   ============================================================ -/

/-- squads.ts lines 54-69: linear probe over at most 10 candidate indices,
returning the first whose derived vault-transaction PDA has no account. -/
def findFreeIndex (chain : Chain) (ms : Pubkey) : Nat → Nat → Except String Nat
  | 0, _ => .error "Could not find free transaction index after 10 attempts"
  | fuel + 1, testIndex =>
      match chain.accounts (Pubkey.transactionPda ms testIndex) with
      | none => .ok testIndex
      | some _ => findFreeIndex chain ms fuel (testIndex + 1)

/-- squads.ts lines 35-72: read the multisig account, decode its monotonic
`transactionIndex` counter `c`, and probe from `c + 1`. -/
def getNextTransactionIndex (chain : Chain) (ms : Pubkey) : Except String Nat :=
  match chain.accounts ms with
  | none => .error "Multisig account not found"
  | some info => findFreeIndex chain ms 10 (info.multisigTxIndex + 1)

/- ============================================================
   Vault Transaction Builder — `createTransferProposal` and
   `createSwapProposal` (squads.ts lines 240-356 and 358-537)
   ============================================================ -/

/-- An account reference inside an instruction
(`{ pubkey, isSigner, isWritable }`). -/
structure AccountMeta where
  pubkey : Pubkey
  isSigner : Bool
  isWritable : Bool
deriving DecidableEq, Repr

/-- A transaction instruction; the opaque `data` bytes are irrelevant to
every embedded control path and are omitted. -/
structure Instruction where
  programId : Pubkey
  keys : List AccountMeta
deriving DecidableEq, Repr

/-- swap.ts lines 221-228: the Jupiter `SwapInstructionsResponse`, with
each `SwapInstructionData` already converted by `convertSwapInstruction`
(squads.ts lines 361-371, a pure field-wise repackaging). -/
structure SwapInstructionsResponse where
  computeBudgetInstructions : List Instruction
  setupInstructions : List Instruction
  swapInstruction : Instruction
  cleanupInstruction : Option Instruction
  otherInstructions : List Instruction
deriving DecidableEq, Repr

/-- squads.ts lines 405-440: ordered assembly of the swap instruction list:
compute-budget, setup, the swap itself, optional cleanup, then the rest. -/
def assembleInstructions (r : SwapInstructionsResponse) : List Instruction :=
  r.computeBudgetInstructions ++ r.setupInstructions ++ [r.swapInstruction] ++
    r.cleanupInstruction.toList ++ r.otherInstructions

/-- One step of the ephemeral-signer scan of squads.ts lines 449-462, over
the running `(seenSigners, ephemeralSignersNeeded)` state. -/
def countEphemeralStep (vault creator : Pubkey) :
    List Pubkey × Nat → AccountMeta → List Pubkey × Nat
  | (seen, count), k =>
      if !k.isSigner then (seen, count)
      else if k.pubkey = vault then (seen, count)
      else if k.pubkey = creator then (seen, count)
      else if k.pubkey ∈ seen then (seen, count)
      else (k.pubkey :: seen, count + 1)

/-- squads.ts lines 447-463: count accounts marked as signers that are
neither the vault nor the creator, deduplicated by address across all
instructions. -/
def ephemeralSignersNeeded (vault creator : Pubkey) (instrs : List Instruction) : Nat :=
  (instrs.foldl (fun st ix => ix.keys.foldl (countEphemeralStep vault creator) st) ([], 0)).2

/-- An account reference that counts towards the ephemeral-signer set:
marked as a signer and neither the vault nor the creator. -/
def ephemeralKeep (vault creator : Pubkey) (k : AccountMeta) : Bool :=
  k.isSigner && k.pubkey ≠ vault && k.pubkey ≠ creator

/-- The addresses the spec's ephemeral-signer contract describes: every
`isSigner` account reference in the instruction list other than the vault
and the creator (so `K` of claim C3 is the number of distinct elements of
this list). -/
def ephemeralSignerAddrs (vault creator : Pubkey) (instrs : List Instruction) : List Pubkey :=
  ((instrs.flatMap fun ix => ix.keys).filter (ephemeralKeep vault creator)).map
    fun k => k.pubkey

/-- An on-chain write submitted via `sendRawTransaction` by the two
proposal builders, in submission order: the `vaultTransactionCreate`
message (with declared vault index, ephemeral-signer count, the message
payer, and the wrapped instruction list) and the `proposalCreate`
message. -/
inductive ChainWrite where
  | vaultTransactionCreate (ms : Pubkey) (transactionIndex : Nat) (vaultIndex : Nat)
      (ephemeralSigners : Nat) (payerKey feePayer : Pubkey) (instrs : List Instruction)
  | proposalCreate (ms : Pubkey) (transactionIndex : Nat) (feePayer : Pubkey)
deriving DecidableEq, Repr

/-- Network oracle for one proposal-builder run: the vault balance read
(`getBalance`, used only by the transfer path), and the combined
send-and-confirm outcome of each of the two writes (`.ok sig` = submitted
and confirmed; `.error msg` = the send or its confirmation threw). -/
structure ProposalEnv where
  vaultBalance : Nat
  sendVaultTx : Except String String
  sendProposalTx : Except String String

/-- Errors thrown by the proposal builders: the pre-submission
insufficient-vault-balance guard (squads.ts lines 266-268) and re-thrown
send/confirmation failures (lines 351-355, 532-536). -/
inductive ProposalError where
  | insufficientVaultBalance (has need : Nat)
  | sendError (msg : String)
deriving DecidableEq, Repr

/-- squads.ts lines 271-275: the system-transfer instruction with the vault
as source. -/
def transferInstruction (vault recipient : Pubkey) : Instruction :=
  ⟨Pubkey.systemProgram, [⟨vault, true, true⟩, ⟨recipient, false, true⟩]⟩

/-- squads.ts lines 240-356: `createTransferProposal`.  The bounded
multisig-visibility poll of lines 251-261 only delays (after 15 misses the
code proceeds regardless), so it has no observable effect here.  Returns
the thrown error or the proposal signature, paired with the ordered trace
of submitted writes. -/
def createTransferProposal (env : ProposalEnv) (creator ms vault recipient : Pubkey)
    (amountLamports : Nat) (transactionIndex : Nat) :
    Except ProposalError String × List ChainWrite :=
  if env.vaultBalance < amountLamports then
    (.error (.insufficientVaultBalance env.vaultBalance amountLamports), [])
  else
    let w1 := ChainWrite.vaultTransactionCreate ms transactionIndex 0 0 vault creator
      [transferInstruction vault recipient]
    match env.sendVaultTx with
    | .error e => (.error (.sendError e), [w1])
    | .ok _ =>
        let w2 := ChainWrite.proposalCreate ms transactionIndex creator
        match env.sendProposalTx with
        | .error e => (.error (.sendError e), [w1, w2])
        | .ok sig => (.ok sig, [w1, w2])

/-- squads.ts lines 383-537: `createSwapProposal`.  Assembles the
instruction list, counts ephemeral signers, submits the vault transaction
(declaring that count, vault index 0, the vault as message payer), awaits
its confirmation, then submits the proposal at the same index. -/
def createSwapProposal (env : ProposalEnv) (creator ms vault : Pubkey)
    (swapInstructions : SwapInstructionsResponse) (transactionIndex : Nat) :
    Except ProposalError String × List ChainWrite :=
  let allInstructions := assembleInstructions swapInstructions
  let eph := ephemeralSignersNeeded vault creator allInstructions
  let w1 := ChainWrite.vaultTransactionCreate ms transactionIndex 0 eph vault creator
    allInstructions
  match env.sendVaultTx with
  | .error e => (.error (.sendError e), [w1])
  | .ok _ =>
      let w2 := ChainWrite.proposalCreate ms transactionIndex creator
      match env.sendProposalTx with
      | .error e => (.error (.sendError e), [w1, w2])
      | .ok sig => (.ok sig, [w1, w2])

/-- The proposal-lifecycle write-ordering discipline claimed by the spec:
either nothing was submitted, or only the vault-transaction write at the
given index, or the vault-transaction write followed by the proposal write
at the same index — the latter only after the vault write's send-and-confirm
succeeded.  A proposal write never precedes its vault-transaction write. -/
def writesWellOrdered (env : ProposalEnv) (ms : Pubkey) (transactionIndex : Nat)
    (trace : List ChainWrite) : Prop :=
  trace = [] ∨
  (∃ e p f il, trace = [ChainWrite.vaultTransactionCreate ms transactionIndex 0 e p f il]) ∨
  (∃ e p f il, trace = [ChainWrite.vaultTransactionCreate ms transactionIndex 0 e p f il,
      ChainWrite.proposalCreate ms transactionIndex f] ∧
    ∃ s, env.sendVaultTx = Except.ok s)

/- ============================================================
   Execution Engine — `executeSwap` / `executeSwapJito`
   (swap.ts lines 1058-1148 and 1163-1283)
   ============================================================ -/

/-- The `SwapResult` record of swap.ts lines 230-235. -/
structure SwapResult where
  success : Bool
  signature : Option String
  error : Option String
  errorCode : Option String
deriving DecidableEq, Repr

/-- A signature status as returned by `getSignatureStatus(...).value`:
the confirmation level and, when the transaction failed on-chain, the
serialized (`JSON.stringify`) form of its error. -/
structure SigStatus where
  confirmationStatus : Option String
  err : Option String
deriving DecidableEq, Repr

/-- swap.ts lines 1106-1141: the `catch` classifier of `executeSwap`,
mapping a thrown error message to a typed `SwapResult`. -/
def classifyExecError (msg : String) : SwapResult :=
  let m := jsToLower msg
  if jsIncludes m "insufficient funds" || jsIncludes m "insufficient lamports" then
    ⟨false, none, some "Insufficient SOL for transaction fees", some "INSUFFICIENT_SOL"⟩
  else if jsIncludes m "slippage" || jsIncludes m "0x1788" then
    ⟨false, none, some "Price changed too much. Try increasing slippage.", some "SLIPPAGE_EXCEEDED"⟩
  else if jsIncludes m "blockhash" || jsIncludes m "expired" then
    ⟨false, none, some "Transaction expired. Please try again.", some "TX_EXPIRED"⟩
  else
    ⟨false, none, some msg, some "EXECUTION_ERROR"⟩

/-- Network oracle for `executeSwap`: the outcome of `sendTransaction`
(signature, or a thrown error message) and of the confirmation race
(`.ok none` = confirmed clean, `.ok (some errJson)` = confirmed with an
on-chain error, `.error msg` = the race threw, e.g. the timeout). -/
structure SwapExecEnv where
  sendResult : Except String String
  confirmResult : Except String (Option String)

/-- swap.ts lines 1058-1148: `executeSwap`, the standard execution path. -/
def executeSwap (env : SwapExecEnv) : SwapResult :=
  match env.sendResult with
  | .error msg => classifyExecError msg
  | .ok sig =>
      match env.confirmResult with
      | .error msg => classifyExecError msg
      | .ok (some _) => ⟨false, some sig, some "Transaction failed on-chain", some "TX_FAILED"⟩
      | .ok none => ⟨true, some sig, none, none⟩

/-- swap.ts lines 1241-1245: a status counts as confirmed when its
confirmation level is `confirmed` or `finalized`. -/
def jitoConfirmed (st : SigStatus) : Bool :=
  st.confirmationStatus == some "confirmed" || st.confirmationStatus == some "finalized"

/-- swap.ts lines 1238-1283: the bounded confirmation-polling loop of
`executeSwapJito`.  `polls k` is what the `k`-th `getSignatureStatus` call
observes (`none` covers both a null status and a caught polling error);
`fuel` is the number of 200 ms polls that fit in the 8 s window.  On the
first confirmed status: a serialized error containing `6024` or `1788` is
decoded as slippage, any other error as a generic on-chain failure, no
error as success.  An exhausted window returns optimistic success. -/
def jitoPollLoop (polls : Nat → Option SigStatus) (sig : String) :
    Nat → Nat → SwapResult
  | 0, _ => ⟨true, some sig, none, none⟩
  | fuel + 1, k =>
      match polls k with
      | some st =>
          if jitoConfirmed st then
            match st.err with
            | some errStr =>
                if jsIncludes errStr "6024" || jsIncludes errStr "1788" then
                  ⟨false, some sig, some "Price moved too much - slippage exceeded",
                    some "SLIPPAGE_EXCEEDED"⟩
                else
                  ⟨false, some sig, some "Transaction failed on-chain", some "TX_FAILED"⟩
            | none => ⟨true, some sig, none, none⟩
          else jitoPollLoop polls sig fuel (k + 1)
      | none => jitoPollLoop polls sig fuel (k + 1)

/-- Network oracle for `executeSwapJito`'s pre-polling phase: the combined
outcome of the Jito endpoint attempts plus the optional direct-send
fallback (lines 1195-1236); `.error` means a throw occurred before polling
started, which triggers the outer `catch`'s fallback to `executeSwap`. -/
structure JitoEnv where
  sendPhase : Except String Unit
  polls : Nat → Option SigStatus
  pollBudget : Nat

/-- swap.ts lines 1163-1283: `executeSwapJito`, the low-latency path.
`fallbackEnv` drives the `executeSwap` fallback taken by the outer
`catch` (lines 1276-1282). -/
def executeSwapJito (env : JitoEnv) (fallbackEnv : SwapExecEnv) (sig : String) : SwapResult :=
  match env.sendPhase with
  | .error _ => executeSwap fallbackEnv
  | .ok _ => jitoPollLoop env.polls sig env.pollBudget 0

/- ============================================================
   Concrete environments exercised by the witness theorems
   ============================================================ -/

/-- An attempt oracle whose very first probed address already holds a
Squads-owned multisig. -/
def c1Env : Nat → AttemptEnv := fun _ => AttemptEnv.existsAccount Pubkey.squadsProgram

/-- A chain holding exactly one account: a multisig with counter 5. -/
def c2Chain : Chain :=
  ⟨fun p => if p = Pubkey.bytes [1] then some ⟨Pubkey.squadsProgram, 5⟩ else none⟩

/-- A proposal-builder oracle with a 0.5 SOL vault and succeeding sends. -/
def c5Env : ProposalEnv := ⟨500000000, Except.ok "sigA", Except.ok "sigB"⟩

/-- An attempt oracle where attempt 0 hits an address occupied by a foreign
(system-owned) account and attempt 1 finds a Squads-owned multisig. -/
def c6Env : Nat → AttemptEnv := fun n =>
  if n = 0 then AttemptEnv.existsAccount Pubkey.systemProgram
  else AttemptEnv.existsAccount Pubkey.squadsProgram

/-- An attempt oracle where every probed address is occupied by a foreign
(system-owned) account, so no attempt ever returns. -/
def c7Env : Nat → AttemptEnv := fun _ => AttemptEnv.existsAccount Pubkey.systemProgram

/-- A confirmed signature status carrying a serialized slippage error. -/
def c9Status : SigStatus := ⟨some "confirmed", some "custom program error: 0x1788 (6024)"⟩

/-- A Jito oracle whose send phase succeeds and whose first poll observes
`c9Status`. -/
def c9Env : JitoEnv := ⟨Except.ok (), fun _ => some c9Status, 1⟩

/-- A standard-path execution oracle (used only as the unreached fallback). -/
def c9Fallback : SwapExecEnv := ⟨Except.ok "sigC", Except.ok none⟩

/- ============================================================
   Helper lemmas: byte lists and the seed perturbation
   ============================================================ -/

theorem getD_set_self (l : List Nat) (i v : Nat) (h : i < l.length) :
    (l.set i v).getD i 0 = v := by
  simp [List.getD, List.getElem?_set_self, h]

theorem getD_set_other (l : List Nat) (i j v : Nat) (h : i ≠ j) :
    (l.set i v).getD j 0 = l.getD j 0 := by
  simp [List.getD, List.getElem?_set_ne h]

theorem xor_255_ne (b : Nat) : b ^^^ 255 ≠ b := by
  intro h
  have h2 : b ^^^ (b ^^^ 255) = b ^^^ b := by rw [h]
  simp [← Nat.xor_assoc, Nat.xor_self, Nat.zero_xor] at h2

theorem perturbSeed_getD_self (ownerBytes : List Nat) (i : Nat)
    (h : i % 32 < ownerBytes.length) :
    (perturbSeed ownerBytes i).getD (i % 32) 0 = ownerBytes.getD (i % 32) 0 ^^^ 255 := by
  simpa [perturbSeed] using getD_set_self ownerBytes (i % 32) _ h

theorem perturbSeed_getD_other (ownerBytes : List Nat) (i j : Nat) (h : j ≠ i % 32) :
    (perturbSeed ownerBytes i).getD j 0 = ownerBytes.getD j 0 :=
  getD_set_other ownerBytes (i % 32) j _ fun he => h he.symm

theorem perturbSeed_eq_spec (ownerBytes : List Nat) (i : Nat) :
    perturbSeed ownerBytes i = specPerturbSeed ownerBytes i := by
  apply List.ext_getElem
  · simp [perturbSeed, specPerturbSeed]
  · intro j h1 h2
    have hj : j < ownerBytes.length := by simpa [perturbSeed] using h1
    simp only [specPerturbSeed, List.getElem_map, List.getElem_range]
    simp only [perturbSeed]
    rw [List.getElem_set]
    by_cases hij : i % 32 = j
    · subst hij
      simp [List.getElem?_eq_getElem hj]
    · have hji : ¬ j = i % 32 := fun hh => hij hh.symm
      simp [hji, hij, List.getElem?_eq_getElem hj]

theorem perturbSeed_ne (ownerBytes : List Nat) (i j : Nat) (hlen : ownerBytes.length = 32)
    (hi : i < 32) (hj : j < 32) (hne : i ≠ j) :
    perturbSeed ownerBytes i ≠ perturbSeed ownerBytes j := by
  intro h
  have hmi : i % 32 = i := Nat.mod_eq_of_lt hi
  have hmj : j % 32 = j := Nat.mod_eq_of_lt hj
  have h1 : (perturbSeed ownerBytes i).getD i 0 = ownerBytes.getD i 0 ^^^ 255 := by
    have := perturbSeed_getD_self ownerBytes i (by rw [hmi, hlen]; exact hi)
    rwa [hmi] at this
  have h2 : (perturbSeed ownerBytes j).getD i 0 = ownerBytes.getD i 0 := by
    exact perturbSeed_getD_other ownerBytes j i (by rw [hmj]; exact hne)
  rw [h, h2] at h1
  exact xor_255_ne _ h1.symm

theorem multisigPdaAt_ne (ownerBytes : List Nat) (i j : Nat) (hlen : ownerBytes.length = 32)
    (hi : i < 32) (hj : j < 32) (hne : i ≠ j) :
    multisigPdaAt ownerBytes i ≠ multisigPdaAt ownerBytes j := by
  intro h
  apply perturbSeed_ne ownerBytes i j hlen hi hj hne
  simpa [multisigPdaAt, createKeyAt] using h

/- ============================================================
   Helper lemmas: the createSquad attempt loop
   ============================================================ -/

theorem attemptValue_multisigPda (ownerBytes : List Nat) (i : Nat) (a : AttemptEnv) :
    (attemptValue ownerBytes i a).multisigPda = multisigPdaAt ownerBytes i := by
  cases a <;> rfl

theorem attemptValue_vaultPda (ownerBytes : List Nat) (i : Nat) (a : AttemptEnv) :
    (attemptValue ownerBytes i a).vaultPda = vaultPdaAt ownerBytes i := by
  cases a <;> rfl

theorem invalidOccupied_not_returns (a : AttemptEnv) (h : invalidOccupied a = true) :
    attemptReturns a = false := by
  cases a with
  | existsAccount owner =>
      simp [invalidOccupied] at h
      simp [attemptReturns, h]
  | absentCreateOk sig => simp [invalidOccupied] at h
  | absentCreateFail msg vo =>
      simp only [invalidOccupied, Bool.and_eq_true, Bool.not_eq_true'] at h
      simp [attemptReturns, h.1, h.2]

theorem createSquadLoop_return (ownerBytes : List Nat) (env : Nat → AttemptEnv)
    (fuel i : Nat) (lastErr : Option String) (h : attemptReturns (env i) = true) :
    createSquadLoop ownerBytes env (fuel + 1) i lastErr =
      .ok (attemptValue ownerBytes i (env i)) := by
  cases henv : env i with
  | existsAccount owner =>
      have howner : owner = Pubkey.squadsProgram := by
        rw [henv] at h
        simpa [attemptReturns] using h
      simp [createSquadLoop, henv, howner, attemptValue]
  | absentCreateOk sig => simp [createSquadLoop, henv, attemptValue]
  | absentCreateFail msg vo =>
      rw [henv] at h
      simp only [attemptReturns, Bool.and_eq_true] at h
      simp [createSquadLoop, henv, h.1, h.2, attemptValue]

theorem createSquadLoop_skip (ownerBytes : List Nat) (env : Nat → AttemptEnv)
    (fuel i : Nat) (lastErr : Option String) (h : attemptReturns (env i) = false) :
    createSquadLoop ownerBytes env (fuel + 1) i lastErr =
      createSquadLoop ownerBytes env fuel (i + 1) (nextLastErr lastErr (env i)) := by
  cases henv : env i with
  | existsAccount owner =>
      have howner : owner ≠ Pubkey.squadsProgram := by
        rw [henv] at h
        simpa [attemptReturns] using h
      simp [createSquadLoop, henv, howner, nextLastErr]
  | absentCreateOk sig =>
      rw [henv] at h
      simp [attemptReturns] at h
  | absentCreateFail msg vo =>
      rw [henv] at h
      simp only [attemptReturns] at h
      by_cases hmsg : isAlreadyInUseError msg = true
      · rw [hmsg] at h
        simp only [Bool.true_and] at h
        simp [createSquadLoop, henv, hmsg, h, nextLastErr]
      · have hm : isAlreadyInUseError msg = false := by
          cases hmm : isAlreadyInUseError msg with
          | false => rfl
          | true => exact absurd hmm hmsg
        simp [createSquadLoop, henv, hm, nextLastErr]

theorem createSquadLoop_first (ownerBytes : List Nat) (env : Nat → AttemptEnv) :
    ∀ (k fuel i : Nat) (lastErr : Option String), k < fuel →
      (∀ j, j < k → attemptReturns (env (i + j)) = false) →
      attemptReturns (env (i + k)) = true →
      createSquadLoop ownerBytes env fuel i lastErr =
        .ok (attemptValue ownerBytes (i + k) (env (i + k))) := by
  intro k
  induction k with
  | zero =>
      intro fuel i lastErr hk hmin hret
      obtain ⟨f, rfl⟩ : ∃ f, fuel = f + 1 := ⟨fuel - 1, by omega⟩
      simpa using createSquadLoop_return ownerBytes env f i lastErr (by simpa using hret)
  | succ k ih =>
      intro fuel i lastErr hk hmin hret
      obtain ⟨f, rfl⟩ : ∃ f, fuel = f + 1 := ⟨fuel - 1, by omega⟩
      have h0 : attemptReturns (env i) = false := by simpa using hmin 0 (by omega)
      rw [createSquadLoop_skip ownerBytes env f i lastErr h0]
      have hcast : ∀ j : Nat, i + 1 + j = i + (j + 1) := by omega
      have hrec := ih f (i + 1) (nextLastErr lastErr (env i)) (by omega)
        (fun j hj => by rw [hcast j]; exact hmin (j + 1) (by omega))
        (by rw [hcast k]; exact hret)
      rw [hrec, hcast k]

theorem createSquadLoop_exhaust (ownerBytes : List Nat) (env : Nat → AttemptEnv) :
    ∀ (fuel i : Nat) (lastErr : Option String),
      (∀ j, j < fuel → attemptReturns (env (i + j)) = false) →
      createSquadLoop ownerBytes env fuel i lastErr =
        .error (match finalLastErr env lastErr fuel i with
          | some m => SquadError.attemptError m
          | none => SquadError.noFreeSlot) := by
  intro fuel
  induction fuel with
  | zero => intro i lastErr _; simp [createSquadLoop, finalLastErr]
  | succ f ih =>
      intro i lastErr h
      have h0 : attemptReturns (env i) = false := by simpa using h 0 (by omega)
      rw [createSquadLoop_skip ownerBytes env f i lastErr h0]
      rw [ih (i + 1) (nextLastErr lastErr (env i))
        (fun j hj => by
          rw [show i + 1 + j = i + (j + 1) from by omega]
          exact h (j + 1) (by omega))]
      simp [finalLastErr]

theorem createSquadLoop_ok_inv (ownerBytes : List Nat) (env : Nat → AttemptEnv) :
    ∀ (fuel i : Nat) (lastErr : Option String) (r : SquadResult),
      createSquadLoop ownerBytes env fuel i lastErr = .ok r →
      ∃ k, k < fuel ∧ (∀ j, j < k → attemptReturns (env (i + j)) = false) ∧
        attemptReturns (env (i + k)) = true ∧
        r = attemptValue ownerBytes (i + k) (env (i + k)) := by
  intro fuel
  induction fuel with
  | zero => intro i lastErr r h; simp [createSquadLoop] at h
  | succ f ih =>
      intro i lastErr r h
      cases hret : attemptReturns (env i) with
      | true =>
          refine ⟨0, by omega, fun j hj => absurd hj (by omega), by simpa using hret, ?_⟩
          rw [createSquadLoop_return ownerBytes env f i lastErr hret] at h
          simpa using (Except.ok.inj h).symm
      | false =>
          rw [createSquadLoop_skip ownerBytes env f i lastErr hret] at h
          obtain ⟨k, hk, hmin, hret', hr⟩ := ih (i + 1) (nextLastErr lastErr (env i)) r h
          refine ⟨k + 1, by omega, ?_, ?_, ?_⟩
          · intro j hj
            cases j with
            | zero => simpa using hret
            | succ j' =>
                rw [show i + (j' + 1) = i + 1 + j' from by omega]
                exact hmin j' (by omega)
          · rw [show i + (k + 1) = i + 1 + k from by omega]
            exact hret'
          · rw [show i + (k + 1) = i + 1 + k from by omega]
            exact hr

theorem finalLastErr_of_no_catch (env : Nat → AttemptEnv) :
    ∀ (fuel i : Nat) (lastErr : Option String),
      (∀ j, j < fuel → ∀ m vo, env (i + j) ≠ AttemptEnv.absentCreateFail m vo) →
      finalLastErr env lastErr fuel i = lastErr := by
  intro fuel
  induction fuel with
  | zero => intro i lastErr _; rfl
  | succ f ih =>
      intro i lastErr h
      have h0 : nextLastErr lastErr (env i) = lastErr := by
        cases henv : env i with
        | existsAccount owner => rfl
        | absentCreateOk sig => rfl
        | absentCreateFail m vo =>
            exact absurd henv (by simpa using h 0 (by omega) m vo)
      show finalLastErr env (nextLastErr lastErr (env i)) f (i + 1) = lastErr
      rw [h0]
      exact ih (i + 1) lastErr fun j hj m vo => by
        rw [show i + 1 + j = i + (j + 1) from by omega]
        exact h (j + 1) (by omega) m vo

/- ============================================================
   Helper lemmas: the transaction index probe
   ============================================================ -/

theorem findFreeIndex_ok_inv (chain : Chain) (ms : Pubkey) :
    ∀ (fuel t n : Nat), findFreeIndex chain ms fuel t = .ok n →
      t ≤ n ∧ n < t + fuel ∧ chain.accounts (Pubkey.transactionPda ms n) = none ∧
      ∀ m, t ≤ m → m < n → (chain.accounts (Pubkey.transactionPda ms m)).isSome = true := by
  intro fuel
  induction fuel with
  | zero => intro t n h; simp [findFreeIndex] at h
  | succ f ih =>
      intro t n h
      cases hacc : chain.accounts (Pubkey.transactionPda ms t) with
      | none =>
          have hn : t = n := by simpa [findFreeIndex, hacc] using h
          subst hn
          exact ⟨Nat.le_refl t, by omega, hacc, fun m hm1 hm2 => absurd hm1 (by omega)⟩
      | some a =>
          have h' : findFreeIndex chain ms f (t + 1) = .ok n := by
            simpa [findFreeIndex, hacc] using h
          obtain ⟨h1, h2, h3, h4⟩ := ih (t + 1) n h'
          refine ⟨by omega, by omega, h3, fun m hm1 hm2 => ?_⟩
          by_cases hmt : m = t
          · subst hmt; simp [hacc]
          · exact h4 m (by omega) hm2

theorem findFreeIndex_ok_of_free (chain : Chain) (ms : Pubkey) :
    ∀ (fuel t : Nat),
      (∃ k, k < fuel ∧ chain.accounts (Pubkey.transactionPda ms (t + k)) = none) →
      ∃ n, findFreeIndex chain ms fuel t = .ok n := by
  intro fuel
  induction fuel with
  | zero =>
      intro t h
      obtain ⟨k, hk, _⟩ := h
      exact absurd hk (Nat.not_lt_zero k)
  | succ f ih =>
      intro t h
      cases hacc : chain.accounts (Pubkey.transactionPda ms t) with
      | none => exact ⟨t, by simp [findFreeIndex, hacc]⟩
      | some a =>
          obtain ⟨k, hk, hfree⟩ := h
          cases k with
          | zero =>
              rw [Nat.add_zero, hacc] at hfree
              exact Option.noConfusion hfree
          | succ q =>
              obtain ⟨n, hn⟩ := ih (t + 1)
                ⟨q, by omega, by rwa [show t + 1 + q = t + (q + 1) from by omega]⟩
              exact ⟨n, by simp [findFreeIndex, hacc, hn]⟩

theorem findFreeIndex_exhaust (chain : Chain) (ms : Pubkey) :
    ∀ (fuel t : Nat),
      (∀ k, k < fuel → (chain.accounts (Pubkey.transactionPda ms (t + k))).isSome = true) →
      findFreeIndex chain ms fuel t =
        .error "Could not find free transaction index after 10 attempts" := by
  intro fuel
  induction fuel with
  | zero => intro t _; rfl
  | succ f ih =>
      intro t h
      have h0 : (chain.accounts (Pubkey.transactionPda ms t)).isSome = true := by
        simpa using h 0 (by omega)
      cases hacc : chain.accounts (Pubkey.transactionPda ms t) with
      | none => rw [hacc] at h0; simp at h0
      | some a =>
          have hrec := ih (t + 1) fun k hk => by
            rw [show t + 1 + k = t + (k + 1) from by omega]
            exact h (k + 1) (by omega)
          simp [findFreeIndex, hacc, hrec]

/- ============================================================
   Helper lemmas: the ephemeral-signer scan
   ============================================================ -/

theorem countEphemeral_foldl_invariant (vault creator : Pubkey) :
    ∀ (l : List AccountMeta) (seen : List Pubkey) (count : Nat),
      count = seen.length → seen.Nodup →
      (l.foldl (countEphemeralStep vault creator) (seen, count)).2 =
        ((l.foldl (countEphemeralStep vault creator) (seen, count)).1).length ∧
      ((l.foldl (countEphemeralStep vault creator) (seen, count)).1).Nodup ∧
      ((l.foldl (countEphemeralStep vault creator) (seen, count)).1).toFinset =
        seen.toFinset ∪ ((l.filter (ephemeralKeep vault creator)).map
          (fun k => k.pubkey)).toFinset := by
  intro l
  induction l with
  | nil => intro seen count h1 h2; simp [h1, h2]
  | cons a t ih =>
      intro seen count h1 h2
      by_cases hs : a.isSigner = true
      · by_cases hv : a.pubkey = vault
        · have hstep : countEphemeralStep vault creator (seen, count) a = (seen, count) := by
            simp [countEphemeralStep, hs, hv]
          have hkeep : ephemeralKeep vault creator a = false := by
            simp [ephemeralKeep, hv]
          simpa [List.foldl_cons, hstep, List.filter_cons, hkeep] using ih seen count h1 h2
        · by_cases hc : a.pubkey = creator
          · have hstep : countEphemeralStep vault creator (seen, count) a = (seen, count) := by
              simp [countEphemeralStep, hs, hv, hc]
            have hkeep : ephemeralKeep vault creator a = false := by
              simp [ephemeralKeep, hc]
            simpa [List.foldl_cons, hstep, List.filter_cons, hkeep] using ih seen count h1 h2
          · have hkeep : ephemeralKeep vault creator a = true := by
              simp [ephemeralKeep, hs, hv, hc]
            by_cases hseen : a.pubkey ∈ seen
            · have hstep : countEphemeralStep vault creator (seen, count) a = (seen, count) := by
                simp [countEphemeralStep, hs, hv, hc, hseen]
              have hf : List.filter (ephemeralKeep vault creator) (a :: t) =
                  a :: List.filter (ephemeralKeep vault creator) t := by
                simp [List.filter_cons, hkeep]
              obtain ⟨i1, i2, i3⟩ := ih seen count h1 h2
              refine ⟨by simpa [List.foldl_cons, hstep] using i1,
                by simpa [List.foldl_cons, hstep] using i2, ?_⟩
              rw [List.foldl_cons, hstep, i3, hf]
              simp only [List.map_cons, List.toFinset_cons, Finset.union_insert]
              exact (Finset.insert_eq_self.mpr
                (Finset.mem_union_left _ (List.mem_toFinset.mpr hseen))).symm
            · have hstep : countEphemeralStep vault creator (seen, count) a =
                  (a.pubkey :: seen, count + 1) := by
                simp [countEphemeralStep, hs, hv, hc, hseen]
              have hf : List.filter (ephemeralKeep vault creator) (a :: t) =
                  a :: List.filter (ephemeralKeep vault creator) t := by
                simp [List.filter_cons, hkeep]
              obtain ⟨i1, i2, i3⟩ := ih (a.pubkey :: seen) (count + 1)
                (by simp [h1]) (by simp [h2, hseen])
              refine ⟨by simpa [List.foldl_cons, hstep] using i1,
                by simpa [List.foldl_cons, hstep] using i2, ?_⟩
              rw [List.foldl_cons, hstep, i3, hf]
              simp [Finset.union_insert, Finset.insert_union]
      · have hstep : countEphemeralStep vault creator (seen, count) a = (seen, count) := by
          simp [countEphemeralStep, hs]
        have hkeep : ephemeralKeep vault creator a = false := by
          simp [ephemeralKeep, hs]
        simpa [List.foldl_cons, hstep, List.filter_cons, hkeep] using ih seen count h1 h2

theorem ephemeralSignersNeeded_eq_card (vault creator : Pubkey) (instrs : List Instruction) :
    ephemeralSignersNeeded vault creator instrs =
      (ephemeralSignerAddrs vault creator instrs).toFinset.card := by
  have hflat : ∀ (li : List Instruction) (st : List Pubkey × Nat),
      li.foldl (fun st ix => ix.keys.foldl (countEphemeralStep vault creator) st) st =
      (li.flatMap fun ix => ix.keys).foldl (countEphemeralStep vault creator) st := by
    intro li
    induction li with
    | nil => intro st; simp
    | cons a t ihf => intro st; simp [List.flatMap_cons, List.foldl_append, ihf]
  obtain ⟨i1, i2, i3⟩ := countEphemeral_foldl_invariant vault creator
    (instrs.flatMap fun ix => ix.keys) [] 0 rfl (by simp)
  unfold ephemeralSignersNeeded ephemeralSignerAddrs
  rw [hflat, i1, ← List.toFinset_card_of_nodup i2, i3]
  simp

/- ============================================================
   Helper lemmas: the Jito confirmation-polling loop
   ============================================================ -/

theorem jitoPollLoop_skip (polls : Nat → Option SigStatus) (sig : String) (fuel k : Nat)
    (h : ∀ st, polls k = some st → jitoConfirmed st = false) :
    jitoPollLoop polls sig (fuel + 1) k = jitoPollLoop polls sig fuel (k + 1) := by
  cases hp : polls k with
  | none => simp [jitoPollLoop, hp]
  | some st => simp [jitoPollLoop, hp, h st hp]

theorem jitoPollLoop_slippage (polls : Nat → Option SigStatus) (sig : String) :
    ∀ (d fuel k : Nat) (st : SigStatus) (e : String), d < fuel →
      (∀ j, j < d → ∀ st', polls (k + j) = some st' → jitoConfirmed st' = false) →
      polls (k + d) = some st → jitoConfirmed st = true → st.err = some e →
      (jsIncludes e "6024" || jsIncludes e "1788") = true →
      jitoPollLoop polls sig fuel k =
        ⟨false, some sig, some "Price moved too much - slippage exceeded",
          some "SLIPPAGE_EXCEEDED"⟩ := by
  intro d
  induction d with
  | zero =>
      intro fuel k st e hd hmin hp hc herr hsl
      obtain ⟨f, rfl⟩ : ∃ f, fuel = f + 1 := ⟨fuel - 1, by omega⟩
      rw [show k + 0 = k from rfl] at hp
      simp [jitoPollLoop, hp, hc, herr, hsl]
  | succ d ih =>
      intro fuel k st e hd hmin hp hc herr hsl
      obtain ⟨f, rfl⟩ : ∃ f, fuel = f + 1 := ⟨fuel - 1, by omega⟩
      rw [jitoPollLoop_skip polls sig f k
        (fun st' hst' => hmin 0 (by omega) st' (by simpa using hst'))]
      exact ih f (k + 1) st e (by omega)
        (fun j hj st' hst' => hmin (j + 1) (by omega) st'
          (by rwa [show k + (j + 1) = k + 1 + j from by omega]))
        (by rwa [show k + 1 + d = k + (d + 1) from by omega]) hc herr hsl

/- ============================================================
   Claims
   ============================================================ -/

/-- C2: for every multisig whose account exists with monotonic counter `c`,
`getNextTransactionIndex` returns the smallest index in `[c + 1, c + 10]`
whose derived vault-transaction address has no existing account (in
particular the returned index's derived address is free), and throws an
error when all 10 probed indices are occupied. -/
theorem claim_C2_transaction_index_allocator (chain : Chain) (ms : Pubkey)
    (info : AccountInfo) (h : chain.accounts ms = some info) :
    (∀ n, getNextTransactionIndex chain ms = .ok n →
        info.multisigTxIndex + 1 ≤ n ∧ n ≤ info.multisigTxIndex + 10 ∧
        chain.accounts (Pubkey.transactionPda ms n) = none ∧
        ∀ m, info.multisigTxIndex + 1 ≤ m → m < n →
          (chain.accounts (Pubkey.transactionPda ms m)).isSome = true) ∧
    ((∃ k, k < 10 ∧
        chain.accounts
          (Pubkey.transactionPda ms (info.multisigTxIndex + 1 + k)) = none) →
      ∃ n, getNextTransactionIndex chain ms = .ok n) ∧
    ((∀ k, k < 10 →
        (chain.accounts
          (Pubkey.transactionPda ms (info.multisigTxIndex + 1 + k))).isSome = true) →
      getNextTransactionIndex chain ms =
        .error "Could not find free transaction index after 10 attempts") := by
  refine ⟨?_, ?_, ?_⟩
  · intro n hn
    simp only [getNextTransactionIndex, h] at hn
    obtain ⟨h1, h2, h3, h4⟩ :=
      findFreeIndex_ok_inv chain ms 10 (info.multisigTxIndex + 1) n hn
    exact ⟨h1, by omega, h3, h4⟩
  · intro hex
    simp only [getNextTransactionIndex, h]
    exact findFreeIndex_ok_of_free chain ms 10 (info.multisigTxIndex + 1) hex
  · intro hall
    simp only [getNextTransactionIndex, h]
    exact findFreeIndex_exhaust chain ms 10 (info.multisigTxIndex + 1) hall

/-- Witness for C2: a concrete chain with a multisig whose counter is 5. -/
theorem claim_C2_witness :
    c2Chain.accounts (Pubkey.bytes [1]) = some ⟨Pubkey.squadsProgram, 5⟩ ∧
    ((∀ n, getNextTransactionIndex c2Chain (Pubkey.bytes [1]) = .ok n →
        5 + 1 ≤ n ∧ n ≤ 5 + 10 ∧
        c2Chain.accounts (Pubkey.transactionPda (Pubkey.bytes [1]) n) = none ∧
        ∀ m, 5 + 1 ≤ m → m < n →
          (c2Chain.accounts (Pubkey.transactionPda (Pubkey.bytes [1]) m)).isSome = true) ∧
    ((∃ k, k < 10 ∧
        c2Chain.accounts (Pubkey.transactionPda (Pubkey.bytes [1]) (5 + 1 + k)) = none) →
      ∃ n, getNextTransactionIndex c2Chain (Pubkey.bytes [1]) = .ok n) ∧
    ((∀ k, k < 10 →
        (c2Chain.accounts
          (Pubkey.transactionPda (Pubkey.bytes [1]) (5 + 1 + k))).isSome = true) →
      getNextTransactionIndex c2Chain (Pubkey.bytes [1]) =
        .error "Could not find free transaction index after 10 attempts")) :=
  ⟨by decide, claim_C2_transaction_index_allocator c2Chain (Pubkey.bytes [1])
    ⟨Pubkey.squadsProgram, 5⟩ (by decide)⟩

/-- C3: for every assembled swap instruction list, the ephemeral-signer
count `createSwapProposal` declares in its `vaultTransactionCreate`
submission equals the number of distinct addresses that are marked
`isSigner` in some instruction and are neither the vault PDA nor the
creator's public key, deduplicated by address across all instructions. -/
theorem claim_C3_ephemeral_signer_count (env : ProposalEnv) (creator ms vault : Pubkey)
    (resp : SwapInstructionsResponse) (transactionIndex : Nat) :
    (createSwapProposal env creator ms vault resp transactionIndex).2.head? =
      some (ChainWrite.vaultTransactionCreate ms transactionIndex 0
        ((ephemeralSignerAddrs vault creator (assembleInstructions resp)).toFinset.card)
        vault creator (assembleInstructions resp)) := by
  rw [← ephemeralSignersNeeded_eq_card]
  cases h1 : env.sendVaultTx <;> cases h2 : env.sendProposalTx <;>
    simp [createSwapProposal, h1, h2]

/-- C4: the create key used by `createSquad` at attempt `i` is derived from
the owner's 32 public-key bytes with the single byte at position `i % 32`
XOR-ed with `0xFF` and all other bytes unchanged; the derivation is a pure
function of `(owner, i)`. -/
theorem claim_C4_create_key_derivation (ownerBytes : List Nat) (i : Nat)
    (hlen : ownerBytes.length = 32) :
    createKeyAt ownerBytes i = Pubkey.fromSeed (specPerturbSeed ownerBytes i) ∧
    (perturbSeed ownerBytes i).length = 32 ∧
    (perturbSeed ownerBytes i).getD (i % 32) 0 = ownerBytes.getD (i % 32) 0 ^^^ 255 ∧
    ∀ j, j ≠ i % 32 → (perturbSeed ownerBytes i).getD j 0 = ownerBytes.getD j 0 := by
  refine ⟨?_, ?_, ?_, ?_⟩
  · unfold createKeyAt
    rw [perturbSeed_eq_spec]
  · simp [perturbSeed, hlen]
  · exact perturbSeed_getD_self ownerBytes i (by rw [hlen]; omega)
  · intro j hj
    exact perturbSeed_getD_other ownerBytes i j hj

/-- Witness for C4: the derivation evaluated on a concrete 32-byte key at
attempt 5. -/
theorem claim_C4_witness :
    (List.range 32).length = 32 ∧
    (createKeyAt (List.range 32) 5 = Pubkey.fromSeed (specPerturbSeed (List.range 32) 5) ∧
    (perturbSeed (List.range 32) 5).length = 32 ∧
    (perturbSeed (List.range 32) 5).getD (5 % 32) 0 =
      (List.range 32).getD (5 % 32) 0 ^^^ 255 ∧
    ∀ j, j ≠ 5 % 32 → (perturbSeed (List.range 32) 5).getD j 0 = (List.range 32).getD j 0) :=
  ⟨by decide, claim_C4_create_key_derivation (List.range 32) 5 (by decide)⟩

/-- C5: whenever the vault's balance is strictly below the requested
amount, `createTransferProposal` throws the insufficient-vault-balance
error with an empty write trace — no `sendRawTransaction` call is reached,
so chain state is untouched. -/
theorem claim_C5_insufficient_balance_guard (env : ProposalEnv)
    (creator ms vault recipient : Pubkey) (amountLamports transactionIndex : Nat)
    (h : env.vaultBalance < amountLamports) :
    createTransferProposal env creator ms vault recipient amountLamports transactionIndex =
      (.error (.insufficientVaultBalance env.vaultBalance amountLamports), []) := by
  simp [createTransferProposal, h]

/-- Witness for C5: the spec scenario — vault balance 0.5 SOL, transfer
request 1.0 SOL. -/
theorem claim_C5_witness :
    c5Env.vaultBalance < 1000000000 ∧
    createTransferProposal c5Env (Pubkey.bytes [2]) (Pubkey.bytes [3]) (Pubkey.bytes [4])
        (Pubkey.bytes [5]) 1000000000 7 =
      (.error (.insufficientVaultBalance c5Env.vaultBalance 1000000000), []) :=
  ⟨by decide, claim_C5_insufficient_balance_guard c5Env (Pubkey.bytes [2]) (Pubkey.bytes [3])
    (Pubkey.bytes [4]) (Pubkey.bytes [5]) 1000000000 7 (by decide)⟩

/-- C1: with the same owner, a second `createSquad` call against a chain
that behaves identically on the attempts preceding the first call's
returning attempt `i` — and at attempt `i` now shows the multisig account
created/recovered by the first call, owned by the Squads program — returns
the same `(multisigPda, vaultPda)` pair as the first call, with the
recovered outcome (signature `"RECOVERED"`) instead of creating anew. -/
theorem claim_C1_idempotent_provisioning (ownerBytes : List Nat) (member2 : Pubkey)
    (threshold creatorBalance : Nat) (env1 env2 : Nat → AttemptEnv) (i : Nat)
    (hbal : ¬ creatorBalance < 10000000)
    (hi : i < 10)
    (hret : attemptReturns (env1 i) = true)
    (hmin : ∀ j, j < i → attemptReturns (env1 j) = false)
    (hagree : ∀ j, j < i → env2 j = env1 j)
    (hrec : env2 i = AttemptEnv.existsAccount Pubkey.squadsProgram) :
    ∃ r1, createSquad ownerBytes member2 threshold creatorBalance env1 = .ok r1 ∧
      createSquad ownerBytes member2 threshold creatorBalance env2 =
        .ok ⟨"RECOVERED", r1.multisigPda, r1.vaultPda⟩ := by
  have hrun1 : createSquadLoop ownerBytes env1 10 0 none =
      .ok (attemptValue ownerBytes i (env1 i)) := by
    have := createSquadLoop_first ownerBytes env1 i 10 0 none hi
      (fun j hj => by simpa using hmin j hj) (by simpa using hret)
    simpa using this
  have hret2 : attemptReturns (env2 i) = true := by
    simp [hrec, attemptReturns]
  have hrun2 : createSquadLoop ownerBytes env2 10 0 none =
      .ok (attemptValue ownerBytes i (env2 i)) := by
    have := createSquadLoop_first ownerBytes env2 i 10 0 none hi
      (fun j hj => by
        rw [show (0 + j : Nat) = j from by omega, hagree j hj]
        exact hmin j hj)
      (by simpa using hret2)
    simpa using this
  refine ⟨attemptValue ownerBytes i (env1 i), by simp [createSquad, hbal, hrun1], ?_⟩
  have h2 : createSquad ownerBytes member2 threshold creatorBalance env2 =
      .ok (attemptValue ownerBytes i (env2 i)) := by
    simp [createSquad, hbal, hrun2]
  rw [h2, hrec, attemptValue_multisigPda ownerBytes i (env1 i),
    attemptValue_vaultPda ownerBytes i (env1 i)]
  rfl

/-- Witness for C1: both calls against a chain whose very first probed
address holds a Squads-owned multisig. -/
theorem claim_C1_witness :
    (¬ (20000000 : Nat) < 10000000) ∧ (0 : Nat) < 10 ∧
    attemptReturns (c1Env 0) = true ∧
    c1Env 0 = AttemptEnv.existsAccount Pubkey.squadsProgram ∧
    ∃ r1, createSquad (List.range 32) Pubkey.systemProgram 1 20000000 c1Env = .ok r1 ∧
      createSquad (List.range 32) Pubkey.systemProgram 1 20000000 c1Env =
        .ok ⟨"RECOVERED", r1.multisigPda, r1.vaultPda⟩ :=
  ⟨by decide, by decide, by decide, rfl,
    claim_C1_idempotent_provisioning (List.range 32) Pubkey.systemProgram 1 20000000
      c1Env c1Env 0 (by decide) (by decide) (by decide)
      (fun j hj => absurd hj (Nat.not_lt_zero j))
      (fun j hj => rfl) rfl⟩

/-- C6: an attempt whose derived address is occupied by an account that is
not a valid Squads multisig (owner mismatch at the pre-check, or the
error-6014 path with failed re-verification) makes the loop continue to the
next attempt; a successful `createSquad` result's `multisigPda` always
belongs to an attempt that was freshly created or verified Squads-owned,
and never equals the derived address of any invalid-occupied attempt. -/
theorem claim_C6_collision_skip (ownerBytes : List Nat) (member2 : Pubkey)
    (threshold creatorBalance : Nat) (env : Nat → AttemptEnv) (r : SquadResult)
    (hlen : ownerBytes.length = 32)
    (hok : createSquad ownerBytes member2 threshold creatorBalance env = .ok r) :
    (∀ i fuel lastErr, invalidOccupied (env i) = true →
        createSquadLoop ownerBytes env (fuel + 1) i lastErr =
          createSquadLoop ownerBytes env fuel (i + 1) (nextLastErr lastErr (env i))) ∧
    (∃ k, k < 10 ∧ r.multisigPda = multisigPdaAt ownerBytes k ∧
        attemptReturns (env k) = true ∧ invalidOccupied (env k) = false) ∧
    (∀ i, i < 10 → invalidOccupied (env i) = true →
        r.multisigPda ≠ multisigPdaAt ownerBytes i) := by
  have hloop : createSquadLoop ownerBytes env 10 0 none = .ok r := by
    by_cases hb : creatorBalance < 10000000
    · simp [createSquad, hb] at hok
    · simpa [createSquad, hb] using hok
  obtain ⟨k, hk, hmin, hret, hr⟩ := createSquadLoop_ok_inv ownerBytes env 10 0 none r hloop
  rw [show (0 + k : Nat) = k from by omega] at hret hr
  have hpda : r.multisigPda = multisigPdaAt ownerBytes k := by
    rw [hr]
    exact attemptValue_multisigPda ownerBytes k (env k)
  have hinv : invalidOccupied (env k) = false := by
    cases hio : invalidOccupied (env k) with
    | false => rfl
    | true =>
        rw [invalidOccupied_not_returns _ hio] at hret
        exact absurd hret (by simp)
  refine ⟨?_, ⟨k, hk, hpda, hret, hinv⟩, ?_⟩
  · intro i fuel lastErr hio
    exact createSquadLoop_skip ownerBytes env fuel i lastErr (invalidOccupied_not_returns _ hio)
  · intro i hi10 hio
    have hik : i ≠ k := by
      intro hik
      rw [hik, hinv] at hio
      exact absurd hio (by simp)
    rw [hpda]
    exact multisigPdaAt_ne ownerBytes k i hlen (by omega) (by omega) fun hh => hik hh.symm

/-- Witness for C6: attempt 0 occupied by a system-owned account, attempt 1
recovered as a valid Squads multisig. -/
theorem claim_C6_witness :
    (List.range 32).length = 32 ∧
    createSquad (List.range 32) Pubkey.systemProgram 1 20000000 c6Env =
      .ok ⟨"RECOVERED", multisigPdaAt (List.range 32) 1, vaultPdaAt (List.range 32) 1⟩ ∧
    ((∀ i fuel lastErr, invalidOccupied (c6Env i) = true →
        createSquadLoop (List.range 32) c6Env (fuel + 1) i lastErr =
          createSquadLoop (List.range 32) c6Env fuel (i + 1) (nextLastErr lastErr (c6Env i))) ∧
    (∃ k, k < 10 ∧
        (SquadResult.mk "RECOVERED" (multisigPdaAt (List.range 32) 1)
          (vaultPdaAt (List.range 32) 1)).multisigPda = multisigPdaAt (List.range 32) k ∧
        attemptReturns (c6Env k) = true ∧ invalidOccupied (c6Env k) = false) ∧
    (∀ i, i < 10 → invalidOccupied (c6Env i) = true →
        (SquadResult.mk "RECOVERED" (multisigPdaAt (List.range 32) 1)
          (vaultPdaAt (List.range 32) 1)).multisigPda ≠ multisigPdaAt (List.range 32) i)) :=
  ⟨by decide, rfl,
    claim_C6_collision_skip (List.range 32) Pubkey.systemProgram 1 20000000 c6Env
      ⟨"RECOVERED", multisigPdaAt (List.range 32) 1, vaultPdaAt (List.range 32) 1⟩
      (by decide) rfl⟩

/-- C7 fails as stated: when a creation attempt throws (here a plain
network error on every attempt), exhausting all 10 attempts re-throws that
last per-attempt error rather than the explicit no-free-slot error. -/
theorem claim_C7_counterexample :
    createSquad (List.range 32) Pubkey.systemProgram 1 20000000
        (fun _ => AttemptEnv.absentCreateFail "RPC node unreachable" []) =
      .error (SquadError.attemptError "RPC node unreachable") ∧
    SquadError.attemptError "RPC node unreachable" ≠ SquadError.noFreeSlot := by
  exact ⟨rfl, by simp⟩

/-- C7 (amended): whenever all 10 provisioning attempts fail, `createSquad`
terminates with a hard error — the last recorded per-attempt creation error
when some attempt's creation threw, and the explicit no-free-slot error
when no attempt entered the creation `catch` (every probed address was
occupied by a foreign account). -/
theorem claim_C7_capacity_exhaustion (ownerBytes : List Nat) (member2 : Pubkey)
    (threshold creatorBalance : Nat) (env : Nat → AttemptEnv)
    (hbal : ¬ creatorBalance < 10000000)
    (hfail : ∀ i, i < 10 → attemptReturns (env i) = false) :
    createSquad ownerBytes member2 threshold creatorBalance env =
      .error (match finalLastErr env none 10 0 with
        | some m => SquadError.attemptError m
        | none => SquadError.noFreeSlot) ∧
    ((∀ i, i < 10 → ∀ m vo, env i ≠ AttemptEnv.absentCreateFail m vo) →
      createSquad ownerBytes member2 threshold creatorBalance env =
        .error SquadError.noFreeSlot) := by
  have hmain := createSquadLoop_exhaust ownerBytes env 10 0 none
    (fun j hj => by simpa using hfail j hj)
  constructor
  · simpa [createSquad, hbal] using hmain
  · intro hnone
    have hle : finalLastErr env none 10 0 = none :=
      finalLastErr_of_no_catch env 10 0 none
        (fun j hj m vo => by simpa using hnone j hj m vo)
    rw [hle] at hmain
    simpa [createSquad, hbal] using hmain

/-- Witness for C7 (amended): every probed address occupied by a foreign
account, ending in the explicit no-free-slot error. -/
theorem claim_C7_witness :
    (¬ (20000000 : Nat) < 10000000) ∧
    (∀ i, i < 10 → attemptReturns (c7Env i) = false) ∧
    (createSquad (List.range 32) Pubkey.systemProgram 1 20000000 c7Env =
      .error (match finalLastErr c7Env none 10 0 with
        | some m => SquadError.attemptError m
        | none => SquadError.noFreeSlot) ∧
    ((∀ i, i < 10 → ∀ m vo, c7Env i ≠ AttemptEnv.absentCreateFail m vo) →
      createSquad (List.range 32) Pubkey.systemProgram 1 20000000 c7Env =
        .error SquadError.noFreeSlot)) :=
  ⟨by decide, by decide,
    claim_C7_capacity_exhaustion (List.range 32) Pubkey.systemProgram 1 20000000 c7Env
      (by decide) (by decide)⟩

/-- C8: in both `createTransferProposal` and `createSwapProposal`, the
vault-transaction write is submitted (and its confirmation awaited) strictly
before the proposal write, both at the same transaction index: every
possible write trace is empty, or the vault write alone, or the vault write
followed by the proposal write with the vault write's send-and-confirm
having succeeded. -/
theorem claim_C8_creation_ordering (env : ProposalEnv) (creator ms vault recipient : Pubkey)
    (amountLamports transactionIndex : Nat) (resp : SwapInstructionsResponse) :
    writesWellOrdered env ms transactionIndex
      (createTransferProposal env creator ms vault recipient amountLamports
        transactionIndex).2 ∧
    writesWellOrdered env ms transactionIndex
      (createSwapProposal env creator ms vault resp transactionIndex).2 := by
  constructor
  · by_cases hb : env.vaultBalance < amountLamports
    · left
      simp [createTransferProposal, hb]
    · cases h1 : env.sendVaultTx with
      | error e =>
          right; left
          exact ⟨0, vault, creator, [transferInstruction vault recipient],
            by simp [createTransferProposal, hb, h1]⟩
      | ok s =>
          cases h2 : env.sendProposalTx with
          | error e =>
              right; right
              exact ⟨0, vault, creator, [transferInstruction vault recipient],
                by simp [createTransferProposal, hb, h1, h2], s, h1⟩
          | ok sig =>
              right; right
              exact ⟨0, vault, creator, [transferInstruction vault recipient],
                by simp [createTransferProposal, hb, h1, h2], s, h1⟩
  · cases h1 : env.sendVaultTx with
    | error e =>
        right; left
        exact ⟨ephemeralSignersNeeded vault creator (assembleInstructions resp), vault,
          creator, assembleInstructions resp, by simp [createSwapProposal, h1]⟩
    | ok s =>
        cases h2 : env.sendProposalTx with
        | error e =>
            right; right
            exact ⟨ephemeralSignersNeeded vault creator (assembleInstructions resp), vault,
              creator, assembleInstructions resp,
              by simp [createSwapProposal, h1, h2], s, h1⟩
        | ok sig =>
            right; right
            exact ⟨ephemeralSignersNeeded vault creator (assembleInstructions resp), vault,
              creator, assembleInstructions resp,
              by simp [createSwapProposal, h1, h2], s, h1⟩

/-- C9: when `executeSwapJito` reaches its polling loop and the first
confirmed signature status carries an on-chain error whose serialized form
contains the slippage code (6024 decimal / 0x1788), the function returns a
`SwapResult` with `success = false`, `errorCode = "SLIPPAGE_EXCEEDED"` and
a human-readable message, rather than throwing or passing the raw program
error through. -/
theorem claim_C9_slippage_decode (env : JitoEnv) (fallbackEnv : SwapExecEnv) (sig : String)
    (k : Nat) (st : SigStatus) (e : String)
    (hsend : env.sendPhase = .ok ())
    (hk : k < env.pollBudget)
    (hfirst : ∀ j, j < k → ∀ st', env.polls j = some st' → jitoConfirmed st' = false)
    (hp : env.polls k = some st)
    (hconf : jitoConfirmed st = true)
    (herr : st.err = some e)
    (hslip : (jsIncludes e "6024" || jsIncludes e "1788") = true) :
    executeSwapJito env fallbackEnv sig =
      ⟨false, some sig, some "Price moved too much - slippage exceeded",
        some "SLIPPAGE_EXCEEDED"⟩ := by
  simp only [executeSwapJito, hsend]
  exact jitoPollLoop_slippage env.polls sig k env.pollBudget 0 st e hk
    (fun j hj st' h' => hfirst j hj st' (by simpa using h'))
    (by simpa using hp) hconf herr hslip

/-- Witness for C9: a single poll observing a confirmed status whose
serialized error carries both slippage markers. -/
theorem claim_C9_witness :
    c9Env.sendPhase = .ok () ∧ (0 : Nat) < c9Env.pollBudget ∧
    c9Env.polls 0 = some c9Status ∧ jitoConfirmed c9Status = true ∧
    c9Status.err = some "custom program error: 0x1788 (6024)" ∧
    (jsIncludes "custom program error: 0x1788 (6024)" "6024" ||
      jsIncludes "custom program error: 0x1788 (6024)" "1788") = true ∧
    executeSwapJito c9Env c9Fallback "sigJ" =
      ⟨false, some "sigJ", some "Price moved too much - slippage exceeded",
        some "SLIPPAGE_EXCEEDED"⟩ :=
  ⟨rfl, by decide, rfl, by decide, rfl, by decide,
    claim_C9_slippage_decode c9Env c9Fallback "sigJ" 0 c9Status
      "custom program error: 0x1788 (6024)" rfl (by decide)
      (fun j hj => absurd hj (Nat.not_lt_zero j)) rfl (by decide) rfl (by decide)⟩

/-- C10 (implicit): `createSwapProposal` performs no vault-balance
precondition check — its result is invariant under any change of the
observed vault balance (including zero), it never throws the
insufficient-vault-balance error, and it always proceeds to at least the
vault-transaction submission; insufficient funds can surface only through
the send outcomes. -/
theorem claim_C10_swap_no_balance_guard (env : ProposalEnv) (creator ms vault : Pubkey)
    (resp : SwapInstructionsResponse) (transactionIndex b : Nat) :
    createSwapProposal { env with vaultBalance := b } creator ms vault resp
        transactionIndex =
      createSwapProposal env creator ms vault resp transactionIndex ∧
    (∀ has need, (createSwapProposal env creator ms vault resp transactionIndex).1 ≠
        Except.error (ProposalError.insufficientVaultBalance has need)) ∧
    (createSwapProposal env creator ms vault resp transactionIndex).2 ≠ [] := by
  refine ⟨?_, ?_, ?_⟩ <;>
    cases h1 : env.sendVaultTx <;> cases h2 : env.sendProposalTx <;>
      simp [createSwapProposal, h1, h2]

end Argus
